import Mathlib

/-!
Verification of the auto-layout / render core (`auto_layout_render_test`).

The Rust sources are shallowly embedded:
* `layout.rs` data model becomes Lean structures and inductives;
* `solver.rs` (`LayoutSolver`) becomes explicit state passing: the
  cassowary solver object is modelled as the ordered list of linear
  constraints handed to it, and fallible operations return `Except`;
* `renderer.rs` pixel blending (`alpha_blend`, `blend_colors`) becomes
  exact rational arithmetic (`f32` computations are modelled over `ℚ`;
  every concrete computation examined below is exact in `f32` as well),
  with Rust's saturating float-to-`u8` cast modelled by `f32_as_u8`;
* external resources (the `image` crate's decoder, the bundled font
  bytes, `rusttype` glyph layout) are modelled by a `ResourceEnv` of
  abstract loaders, and cassowary's solution extraction (`get_value`)
  by an abstract assignment `sol : Var → ℚ` of the layout variables.
-/

namespace AutoLayout

/-! ## Data model (layout.rs) -/

/-- layout.rs `Color`: four 8-bit channels (modelled as `ℕ`, values
meant to lie in `0..=255`). -/
structure Color where
  r : ℕ
  g : ℕ
  b : ℕ
  a : ℕ
deriving DecidableEq

/-- layout.rs `FontWeight`. -/
inductive FontWeight
  | light
  | normal
  | bold
deriving DecidableEq

/-- layout.rs `TextAlignment`. -/
inductive TextAlignment
  | leading
  | center
  | trailing
  | justified
deriving DecidableEq

/-- layout.rs `LineBreakMode`. -/
inductive LineBreakMode
  | wordWrap
  | charWrap
  | clip
  | truncateHead
  | truncateTail
  | truncateMiddle
deriving DecidableEq

/-- layout.rs `Alignment` (stack cross-axis alignment). -/
inductive Alignment
  | leading
  | center
  | trailing
  | top
  | bottom
  | firstBaseline
  | lastBaseline
deriving DecidableEq

/-- layout.rs `Distribution`. -/
inductive Distribution
  | fill
  | fillEqually
  | fillProportionally
  | equalSpacing
  | equalCentering
deriving DecidableEq

/-- layout.rs `Priority`. -/
inductive Priority
  | required
  | high
  | medium
  | low
deriving DecidableEq

/-- layout.rs `type ElementId = String`. -/
abbrev ElementId := String

/-- layout.rs `ConstraintType`.  `f32` payloads are modelled as `ℚ`. -/
inductive ConstraintType
  | top (target : Option ElementId) (value : ℚ)
  | bottom (target : Option ElementId) (value : ℚ)
  | leading (target : Option ElementId) (value : ℚ)
  | trailing (target : Option ElementId) (value : ℚ)
  | centerX (target : Option ElementId) (offset : ℚ)
  | centerY (target : Option ElementId) (offset : ℚ)
  | width (value : Option ℚ) (target : Option ElementId) (multiplier : ℚ)
      (percent : Option ℚ)
  | height (value : Option ℚ) (target : Option ElementId) (multiplier : ℚ)
      (percent : Option ℚ)
  | aspectRatio (ratio : ℚ)
  | minWidth (value : ℚ)
  | maxWidth (value : ℚ)
  | minHeight (value : ℚ)
  | maxHeight (value : ℚ)
  | alignTop (target : ElementId)
  | alignBottom (target : ElementId)
  | alignLeading (target : ElementId)
  | alignTrailing (target : ElementId)
  | alignBaseline (target : ElementId)
deriving DecidableEq

/-- layout.rs `Constraint`. -/
structure Constraint where
  constraint_type : ConstraintType
  priority : Priority
deriving DecidableEq

/-- layout.rs `TextProperties`. -/
structure TextProperties where
  font_size : ℚ
  font_weight : FontWeight
  font_family : String
  color : Color
  alignment : TextAlignment
  line_height : ℚ
  letter_spacing : ℚ
  max_lines : Option ℕ
  line_break_mode : LineBreakMode
deriving DecidableEq

/-- layout.rs `ImageProperties` (`scale_mode`, `aspect_ratio`,
`corner_radius`, `opacity`, `tint_color`; none of them is consulted by
the solver, so only the fields are carried). -/
structure ImageProperties where
  aspect_ratio : Option ℚ
  corner_radius : ℚ
  opacity : ℚ
  tint_color : Option Color
deriving DecidableEq

/-- layout.rs `StackProperties`. -/
structure StackProperties where
  spacing : ℚ
  alignment : Alignment
  distribution : Distribution
deriving DecidableEq

/-- layout.rs `ContainerProperties`. -/
structure ContainerProperties where
  background : Color
  corner_radius : ℚ
  border_width : ℚ
  border_color : Color
  opacity : ℚ
deriving DecidableEq

/-- layout.rs `Element`.  `content` is kept as a `String`; children are
nested lists, exactly as in the Rust enum. -/
inductive Element
  | text (id : ElementId) (content : String) (properties : TextProperties)
      (constraints : List Constraint)
  | image (id : ElementId) (source : String) (properties : ImageProperties)
      (constraints : List Constraint)
  | container (id : ElementId) (properties : ContainerProperties)
      (constraints : List Constraint) (children : List Element)
  | vstack (id : ElementId) (properties : StackProperties)
      (constraints : List Constraint) (children : List Element)
  | hstack (id : ElementId) (properties : StackProperties)
      (constraints : List Constraint) (children : List Element)
  | zstack (id : ElementId) (properties : StackProperties)
      (constraints : List Constraint) (children : List Element)
  | spacer (id : ElementId) (min_length : ℚ) (priority : Priority)
      (constraints : List Constraint)

/-- layout.rs `Element::id`. -/
def Element.id : Element → ElementId
  | .text i _ _ _ => i
  | .image i _ _ _ => i
  | .container i _ _ _ => i
  | .vstack i _ _ _ => i
  | .hstack i _ _ _ => i
  | .zstack i _ _ _ => i
  | .spacer i _ _ _ => i

/-- layout.rs `Element::constraints`. -/
def Element.constraints : Element → List Constraint
  | .text _ _ _ cs => cs
  | .image _ _ _ cs => cs
  | .container _ _ cs _ => cs
  | .vstack _ _ cs _ => cs
  | .hstack _ _ cs _ => cs
  | .zstack _ _ cs _ => cs
  | .spacer _ _ _ cs => cs

/-- layout.rs `Canvas`. -/
structure Canvas where
  width : ℚ
  height : ℚ
  background : Color
deriving DecidableEq

/-- layout.rs `Layout`. -/
structure Layout where
  version : String
  canvas : Canvas
  elements : List Element

/-- layout.rs `Size`. -/
structure Size where
  width : ℚ
  height : ℚ
deriving DecidableEq

/-- layout.rs `Point`. -/
structure Point where
  x : ℚ
  y : ℚ
deriving DecidableEq

/-- layout.rs `Rect`. -/
structure Rect where
  origin : Point
  size : Size
deriving DecidableEq

/-- layout.rs `ComputedLayout`.  The `HashMap<ElementId, Rect>` is
modelled as the association list of the `set_frame` insertions, in
insertion order. -/
structure ComputedLayout where
  element_frames : List (ElementId × Rect)
  canvas_size : Size

/-- layout.rs `ComputedLayout::new`. -/
def ComputedLayout.new (canvas_size : Size) : ComputedLayout :=
  ⟨[], canvas_size⟩

/-- layout.rs `ComputedLayout::set_frame`. -/
def ComputedLayout.set_frame (cl : ComputedLayout) (id : ElementId)
    (frame : Rect) : ComputedLayout :=
  { cl with element_frames := cl.element_frames ++ [(id, frame)] }

/-! ## The constraint system handed to cassowary (solver.rs)

Each `solver.add_constraint(lhs | REL(strength) | rhs)` call is
recorded as a `CConstraint`.  Variables are named symbolically by the
element id that owns them (the Rust code allocates anonymous
`Variable`s per element in a `HashMap`). -/

/-- One of the eight `ElementVariables` slots of solver.rs. -/
inductive VarKind
  | x
  | y
  | width
  | height
  | centerX
  | centerY
  | right
  | bottom
deriving DecidableEq

/-- A solver variable: either a canvas variable or an element's. -/
inductive Var
  | canvas (k : VarKind)
  | elem (id : ElementId) (k : VarKind)
deriving DecidableEq

/-- A linear expression `Σ coeff·var + konst` (the right-hand sides the
Rust code builds with cassowary's operator overloads). -/
structure LinExpr where
  terms : List (Var × ℚ)
  konst : ℚ
deriving DecidableEq

/-- Evaluate a linear expression under an assignment. -/
def evalExpr (a : Var → ℚ) (e : LinExpr) : ℚ :=
  e.terms.foldl (fun s t => s + a t.1 * t.2) 0 + e.konst

/-- Constant expression. -/
def eConst (c : ℚ) : LinExpr := ⟨[], c⟩

/-- A bare variable. -/
def eVar (v : Var) : LinExpr := ⟨[(v, 1)], 0⟩

/-- `v + c`. -/
def eVarPlus (v : Var) (c : ℚ) : LinExpr := ⟨[(v, 1)], c⟩

/-- `k·v`. -/
def eVarMul (v : Var) (k : ℚ) : LinExpr := ⟨[(v, k)], 0⟩

/-- `k1·v1 + k2·v2`. -/
def eAdd2 (v1 : Var) (k1 : ℚ) (v2 : Var) (k2 : ℚ) : LinExpr :=
  ⟨[(v1, k1), (v2, k2)], 0⟩

/-- cassowary `WeightedRelation`. -/
inductive Rel
  | eq
  | ge
  | le
deriving DecidableEq

/-- A recorded `add_constraint` call: `lhs REL rhs` at a strength. -/
structure CConstraint where
  lhs : Var
  rel : Rel
  rhs : LinExpr
  strength : ℚ
deriving DecidableEq

/-- cassowary `strength::REQUIRED`. -/
def S_REQUIRED : ℚ := 1001001000

/-- cassowary `strength::STRONG`. -/
def S_STRONG : ℚ := 1000000

/-- cassowary `strength::MEDIUM`. -/
def S_MEDIUM : ℚ := 1000

/-- cassowary `strength::WEAK`. -/
def S_WEAK : ℚ := 1

/-- An assignment satisfies a recorded constraint. -/
def satisfies (a : Var → ℚ) (c : CConstraint) : Prop :=
  match c.rel with
  | .eq => a c.lhs = evalExpr a c.rhs
  | .ge => evalExpr a c.rhs ≤ a c.lhs
  | .le => a c.lhs ≤ evalExpr a c.rhs

instance (a : Var → ℚ) (c : CConstraint) : Decidable (satisfies a c) :=
  match c with
  | ⟨lhs, .eq, rhs, _⟩ => inferInstanceAs (Decidable (a lhs = evalExpr a rhs))
  | ⟨lhs, .ge, rhs, _⟩ => inferInstanceAs (Decidable (evalExpr a rhs ≤ a lhs))
  | ⟨lhs, .le, rhs, _⟩ => inferInstanceAs (Decidable (a lhs ≤ evalExpr a rhs))

/-! ## External resources

`rusttype` glyph layout and the `image` crate's decoding are external
to the repository; they are modelled by abstract loaders. -/

/-- A positioned glyph as consumed by solver.rs
`measure_text_width`: the optional pixel bounding box min/max x
(`pixel_bounding_box()` returns `None` for whitespace glyphs). -/
structure Glyph where
  bbMinX : Option ℤ
  bbMaxX : Option ℤ

/-- A font as consumed by the solver: `rusttype`'s `Font::layout`
iterates the characters of the text, producing one positioned glyph
per character while advancing the caret.  `glyphAt c scale pen` yields
the glyph for `c` at the given uniform scale and caret position,
together with the next caret position. -/
structure FontModel where
  glyphAt : Char → ℚ → ℚ → Glyph × ℚ

/-- A decoded bitmap as consumed by the solver: its dimensions. -/
structure ImageModel where
  width : ℕ
  height : ℕ
deriving DecidableEq

/-- The external world: `image::open` (with `none` for a failed load)
and `Font::try_from_bytes` on the bundled DejaVu Sans bytes (`none`
if those bytes failed to parse). -/
structure ResourceEnv where
  openImage : String → Option ImageModel
  bundledFont : Option FontModel

/-! ## LayoutSolver state (solver.rs) -/

/-- solver.rs `SolverError`.  The formatted payloads of
`ConstraintError` / `InvalidConstraint` are modelled by the fixed
message prefix the code produces. -/
inductive SolverError
  | constraintErr (msg : String)
  | suggestValueErr (msg : String)
  | elementNotFound (id : ElementId)
  | invalidConstraint (msg : String)
deriving DecidableEq

/-- solver.rs `LayoutSolver`: the cassowary `Solver` is recorded as
the ordered list of constraints added to it; `variables` records which
element ids have had `ElementVariables` created; the font and image
caches are association lists (`HashMap` insertions, newest first). -/
structure LayoutSolver where
  constraints : List CConstraint
  vars : List ElementId
  fonts : List (String × FontModel)
  images : List (String × ImageModel)

/-- solver.rs `LayoutSolver::new` (and the reset at the top of
`solve_layout`). -/
def LayoutSolver.new : LayoutSolver := ⟨[], [], [], []⟩

/-- Record one `solver.add_constraint` call. -/
def emit (s : LayoutSolver) (c : CConstraint) : LayoutSolver :=
  { s with constraints := s.constraints ++ [c] }

/-- solver.rs `LayoutSolver::load_font`: the cache is consulted first;
on a miss the bundled DejaVu Sans face is parsed and stored under the
requested family name — the requested family itself is never opened. -/
def load_font (env : ResourceEnv) (s : LayoutSolver) (font_family : String) :
    Except SolverError LayoutSolver :=
  if (s.fonts.lookup font_family).isSome then .ok s
  else
    match env.bundledFont with
    | none => .error (.constraintErr "Failed to load DejaVu Sans font")
    | some f => .ok { s with fonts := (font_family, f) :: s.fonts }

/-- solver.rs `LayoutSolver::load_image`: cache first; a failed
`image::open` is propagated as a `ConstraintError`. -/
def load_image (env : ResourceEnv) (s : LayoutSolver) (image_path : String) :
    Except SolverError LayoutSolver :=
  if (s.images.lookup image_path).isSome then .ok s
  else
    match env.openImage image_path with
    | none => .error (.constraintErr ("Failed to load image " ++ image_path))
    | some img => .ok { s with images := (image_path, img) :: s.images }

/-- solver.rs `Font::layout` as used by `measure_text_width`: lay the
characters out left to right starting at caret position `pen`. -/
def layoutGlyphs (f : FontModel) (scale : ℚ) : List Char → ℚ → List Glyph
  | [], _ => []
  | c :: cs, pen =>
    let g := f.glyphAt c scale pen
    g.1 :: layoutGlyphs f scale cs g.2

/-- solver.rs `LayoutSolver::measure_text_width`: the distance from
the first glyph's bounding-box min x to the last glyph's bounding-box
max x (0 when either box is absent is substituted per side; 0 for an
empty glyph run). -/
def measure_text_width (f : FontModel) (text : String) (scale : ℚ) : ℚ :=
  let glyphs := layoutGlyphs f scale text.data 0
  match glyphs.head?, glyphs.getLast? with
  | some first, some last =>
    ((last.bbMaxX.getD 0 : ℤ) : ℚ) - ((first.bbMinX.getD 0 : ℤ) : ℚ)
  | _, _ => 0

/-- solver.rs `LayoutSolver::priority_to_strength`. -/
def priority_to_strength : Priority → ℚ
  | .required => S_REQUIRED
  | .high => S_STRONG
  | .medium => S_MEDIUM
  | .low => S_WEAK

/-- The target-variable resolution pattern repeated in
`add_constraint`: an absent target or the literal `"canvas"` selects a
canvas variable of kind `canvasK`; otherwise the peer's variables are
looked up (`ElementNotFound` on a miss) and the slot `peerK` taken. -/
def targetVar (s : LayoutSolver) (target : Option ElementId)
    (canvasK peerK : VarKind) : Except SolverError Var :=
  match target with
  | some tid =>
    if tid = "canvas" then .ok (.canvas canvasK)
    else if tid ∈ s.vars then .ok (.elem tid peerK)
    else .error (.elementNotFound tid)
  | none => .ok (.canvas canvasK)

/-- solver.rs `LayoutSolver::add_constraint`, lowering phase: the
single constraint an arm hands to cassowary (`none` when the arm adds
nothing, as in the `Width`/`Height` arm with neither a value nor a
target), or the error it returns.  The element's own variables are
looked up first (`ElementNotFound` on a miss). -/
def lower_constraint (s : LayoutSolver) (element_id : ElementId)
    (c : Constraint) : Except SolverError (Option CConstraint) :=
  if element_id ∈ s.vars then
    let strength := priority_to_strength c.priority
    match c.constraint_type with
    | .top target value => do
      let tv ← targetVar s target .y .bottom
      .ok (some ⟨.elem element_id .y, .eq, eVarPlus tv value, strength⟩)
    | .bottom target value => do
      let tv ← targetVar s target .bottom .y
      .ok (some ⟨.elem element_id .bottom, .eq, eVarPlus tv (-value), strength⟩)
    | .leading target value => do
      let tv ← targetVar s target .x .right
      .ok (some ⟨.elem element_id .x, .eq, eVarPlus tv value, strength⟩)
    | .trailing target value => do
      let tv ← targetVar s target .right .x
      .ok (some ⟨.elem element_id .right, .eq, eVarPlus tv (-value), strength⟩)
    | .centerX target offset => do
      let tv ← targetVar s target .centerX .centerX
      .ok (some ⟨.elem element_id .centerX, .eq, eVarPlus tv offset, strength⟩)
    | .centerY target offset => do
      let tv ← targetVar s target .centerY .centerY
      .ok (some ⟨.elem element_id .centerY, .eq, eVarPlus tv offset, strength⟩)
    | .width value target multiplier percent =>
      match value with
      | some width_value =>
        .ok (some ⟨.elem element_id .width, .eq, eConst width_value, strength⟩)
      | none =>
        match target with
        | some _ => do
          let tv ← targetVar s target .width .width
          match percent with
          | some percent_value =>
            .ok (some ⟨.elem element_id .width, .eq,
              eVarMul tv (percent_value / 100), strength⟩)
          | none =>
            .ok (some ⟨.elem element_id .width, .eq,
              eVarMul tv multiplier, strength⟩)
        | none => .ok none
    | .height value target multiplier percent =>
      match value with
      | some height_value =>
        .ok (some ⟨.elem element_id .height, .eq, eConst height_value, strength⟩)
      | none =>
        match target with
        | some _ => do
          let tv ← targetVar s target .height .height
          match percent with
          | some percent_value =>
            .ok (some ⟨.elem element_id .height, .eq,
              eVarMul tv (percent_value / 100), strength⟩)
          | none =>
            .ok (some ⟨.elem element_id .height, .eq,
              eVarMul tv multiplier, strength⟩)
        | none => .ok none
    | .aspectRatio ratio =>
      .ok (some ⟨.elem element_id .width, .eq,
        eVarMul (.elem element_id .height) ratio, strength⟩)
    | .minWidth value =>
      .ok (some ⟨.elem element_id .width, .ge, eConst value, strength⟩)
    | .maxWidth value =>
      .ok (some ⟨.elem element_id .width, .le, eConst value, strength⟩)
    | .minHeight value =>
      .ok (some ⟨.elem element_id .height, .ge, eConst value, strength⟩)
    | .maxHeight value =>
      .ok (some ⟨.elem element_id .height, .le, eConst value, strength⟩)
    | .alignTop _ => .error (.invalidConstraint "Unsupported constraint type")
    | .alignBottom _ => .error (.invalidConstraint "Unsupported constraint type")
    | .alignLeading _ => .error (.invalidConstraint "Unsupported constraint type")
    | .alignTrailing _ => .error (.invalidConstraint "Unsupported constraint type")
    | .alignBaseline _ => .error (.invalidConstraint "Unsupported constraint type")
  else .error (.elementNotFound element_id)

/-- solver.rs `LayoutSolver::add_constraint`. -/
def add_constraint (s : LayoutSolver) (element_id : ElementId)
    (c : Constraint) : Except SolverError LayoutSolver :=
  match lower_constraint s element_id c with
  | .error e => .error e
  | .ok none => .ok s
  | .ok (some cc) => .ok (emit s cc)

/-- The `has_width_constraint` check of
`add_intrinsic_size_constraints`: any constraint of shape
`Width { value: Some(_), .. }`, at any priority. -/
def has_width_value (cs : List Constraint) : Bool :=
  cs.any fun c =>
    match c.constraint_type with
    | .width (some _) _ _ _ => true
    | _ => false

/-- The `has_height_constraint` check of
`add_intrinsic_size_constraints`: any constraint of shape
`Height { value: Some(_), .. }`, at any priority. -/
def has_height_value (cs : List Constraint) : Bool :=
  cs.any fun c =>
    match c.constraint_type with
    | .height (some _) _ _ _ => true
    | _ => false

/-- solver.rs `LayoutSolver::add_intrinsic_size_constraints`.  Only
`Text` and `Image` elements are affected.  For text, when an explicit
width (resp. height) `value` constraint is absent, `w = measured text
width` (resp. `h = font_size × 1.2`) is emitted at cassowary `MEDIUM`
strength; for images the cached bitmap's dimensions are used.  A
failed load propagates as an error. -/
def add_intrinsic_size_constraints (env : ResourceEnv) (s : LayoutSolver)
    (element : Element) : Except SolverError LayoutSolver :=
  match element with
  | .text id content properties cs =>
    let hw := has_width_value cs
    let hh := has_height_value cs
    if !hw || !hh then
      match load_font env s properties.font_family with
      | .error e => .error e
      | .ok s =>
      match s.fonts.lookup properties.font_family with
      | none => .ok s
      | some font =>
        if id ∈ s.vars then
          let s :=
            if !hw then
              emit s ⟨.elem id .width, .eq,
                eConst (measure_text_width font content properties.font_size),
                S_MEDIUM⟩
            else s
          let s :=
            if !hh then
              emit s ⟨.elem id .height, .eq,
                eConst (properties.font_size * (6 / 5)), S_MEDIUM⟩
            else s
          .ok s
        else .error (.elementNotFound id)
    else .ok s
  | .image id source _ cs =>
    let hw := has_width_value cs
    let hh := has_height_value cs
    if !hw || !hh then
      match load_image env s source with
      | .error e => .error e
      | .ok s =>
      match s.images.lookup source with
      | none => .ok s
      | some img =>
        if id ∈ s.vars then
          let s :=
            if !hw then
              emit s ⟨.elem id .width, .eq, eConst (img.width : ℚ), S_MEDIUM⟩
            else s
          let s :=
            if !hh then
              emit s ⟨.elem id .height, .eq, eConst (img.height : ℚ), S_MEDIUM⟩
            else s
          .ok s
        else .error (.elementNotFound id)
    else .ok s
  | _ => .ok s

/-- The per-child loop of solver.rs `add_vstack_constraints`: `prev`
carries the id of the previous child (none on the first iteration).
Each child gets `y = stack.y` (first) or `y = prev.bottom + spacing`
(later), then a cross-axis alignment constraint, all at `REQUIRED`. -/
def vstack_loop (stack_id : ElementId) (spacing : ℚ) (align : Alignment) :
    LayoutSolver → Option ElementId → List Element →
    Except SolverError LayoutSolver
  | s, _, [] => .ok s
  | s, prev, child :: rest =>
    if child.id ∈ s.vars then
      let s1 :=
        match prev with
        | none => emit s ⟨.elem child.id .y, .eq,
            eVar (.elem stack_id .y), S_REQUIRED⟩
        | some p => emit s ⟨.elem child.id .y, .eq,
            eVarPlus (.elem p .bottom) spacing, S_REQUIRED⟩
      let s2 :=
        match align with
        | .leading => emit s1 ⟨.elem child.id .x, .eq,
            eVar (.elem stack_id .x), S_REQUIRED⟩
        | .center => emit s1 ⟨.elem child.id .centerX, .eq,
            eVar (.elem stack_id .centerX), S_REQUIRED⟩
        | .trailing => emit s1 ⟨.elem child.id .right, .eq,
            eVar (.elem stack_id .right), S_REQUIRED⟩
        | _ => s1
      vstack_loop stack_id spacing align s2 (some child.id) rest
    else .error (.elementNotFound child.id)

/-- solver.rs `LayoutSolver::add_vstack_constraints`: nothing for an
empty stack; otherwise the child loop followed by
`stack.height = last.bottom − stack.y` at `REQUIRED`. -/
def add_vstack_constraints (s : LayoutSolver) (stack_id : ElementId)
    (children : List Element) (properties : StackProperties) :
    Except SolverError LayoutSolver :=
  if children.isEmpty then .ok s
  else if stack_id ∈ s.vars then
    match vstack_loop stack_id properties.spacing properties.alignment
      s none children with
    | .error e => .error e
    | .ok s =>
      match children.getLast? with
      | none => .ok s
      | some last_child =>
        if last_child.id ∈ s.vars then
          .ok (emit s ⟨.elem stack_id .height, .eq,
            eAdd2 (.elem last_child.id .bottom) 1 (.elem stack_id .y) (-1),
            S_REQUIRED⟩)
        else .error (.elementNotFound last_child.id)
  else .error (.elementNotFound stack_id)

/-- The per-child loop of solver.rs `add_hstack_constraints`
(symmetric to `vstack_loop` with the axes swapped). -/
def hstack_loop (stack_id : ElementId) (spacing : ℚ) (align : Alignment) :
    LayoutSolver → Option ElementId → List Element →
    Except SolverError LayoutSolver
  | s, _, [] => .ok s
  | s, prev, child :: rest =>
    if child.id ∈ s.vars then
      let s1 :=
        match prev with
        | none => emit s ⟨.elem child.id .x, .eq,
            eVar (.elem stack_id .x), S_REQUIRED⟩
        | some p => emit s ⟨.elem child.id .x, .eq,
            eVarPlus (.elem p .right) spacing, S_REQUIRED⟩
      let s2 :=
        match align with
        | .top => emit s1 ⟨.elem child.id .y, .eq,
            eVar (.elem stack_id .y), S_REQUIRED⟩
        | .center => emit s1 ⟨.elem child.id .centerY, .eq,
            eVar (.elem stack_id .centerY), S_REQUIRED⟩
        | .bottom => emit s1 ⟨.elem child.id .bottom, .eq,
            eVar (.elem stack_id .bottom), S_REQUIRED⟩
        | _ => s1
      hstack_loop stack_id spacing align s2 (some child.id) rest
    else .error (.elementNotFound child.id)

/-- solver.rs `LayoutSolver::add_hstack_constraints`. -/
def add_hstack_constraints (s : LayoutSolver) (stack_id : ElementId)
    (children : List Element) (properties : StackProperties) :
    Except SolverError LayoutSolver :=
  if children.isEmpty then .ok s
  else if stack_id ∈ s.vars then
    match hstack_loop stack_id properties.spacing properties.alignment
      s none children with
    | .error e => .error e
    | .ok s =>
      match children.getLast? with
      | none => .ok s
      | some last_child =>
        if last_child.id ∈ s.vars then
          .ok (emit s ⟨.elem stack_id .width, .eq,
            eAdd2 (.elem last_child.id .right) 1 (.elem stack_id .x) (-1),
            S_REQUIRED⟩)
        else .error (.elementNotFound last_child.id)
  else .error (.elementNotFound stack_id)

/-- The `for constraint in element.constraints()` loop of
`add_user_constraints`. -/
def add_constraint_list (s : LayoutSolver) (element_id : ElementId) :
    List Constraint → Except SolverError LayoutSolver
  | [] => .ok s
  | c :: cs =>
    match add_constraint s element_id c with
    | .error e => .error e
    | .ok s => add_constraint_list s element_id cs

mutual

/-- solver.rs `LayoutSolver::create_variables_for_elements`: allocate
an `ElementVariables` record per element, in pre-order. -/
def create_vars_list (s : LayoutSolver) : List Element → LayoutSolver
  | [] => s
  | e :: es => create_vars_list (create_vars_one s e) es

/-- One step of `create_variables_for_elements`. -/
def create_vars_one (s : LayoutSolver) : Element → LayoutSolver
  | .text i _ _ _ => { s with vars := s.vars ++ [i] }
  | .image i _ _ _ => { s with vars := s.vars ++ [i] }
  | .spacer i _ _ _ => { s with vars := s.vars ++ [i] }
  | .container i _ _ children =>
    create_vars_list { s with vars := s.vars ++ [i] } children
  | .vstack i _ _ children =>
    create_vars_list { s with vars := s.vars ++ [i] } children
  | .hstack i _ _ children =>
    create_vars_list { s with vars := s.vars ++ [i] } children
  | .zstack i _ _ children =>
    create_vars_list { s with vars := s.vars ++ [i] } children

end

mutual

/-- solver.rs `LayoutSolver::add_user_constraints`: per element, the
intrinsic size constraints, then the user constraints, then the
VStack/HStack ordering constraints, then the children recursively. -/
def add_user_constraints (env : ResourceEnv) (s : LayoutSolver) :
    List Element → Except SolverError LayoutSolver
  | [] => .ok s
  | e :: es =>
    match add_user_one env s e with
    | .error err => .error err
    | .ok s => add_user_constraints env s es

/-- The body of the `add_user_constraints` loop for one element. -/
def add_user_one (env : ResourceEnv) (s : LayoutSolver) :
    Element → Except SolverError LayoutSolver
  | .text i c p cs =>
    match add_intrinsic_size_constraints env s (.text i c p cs) with
    | .error err => .error err
    | .ok s => add_constraint_list s i cs
  | .image i src p cs =>
    match add_intrinsic_size_constraints env s (.image i src p cs) with
    | .error err => .error err
    | .ok s => add_constraint_list s i cs
  | .spacer i ml pr cs =>
    match add_intrinsic_size_constraints env s (.spacer i ml pr cs) with
    | .error err => .error err
    | .ok s => add_constraint_list s i cs
  | .container i p cs children =>
    match add_intrinsic_size_constraints env s (.container i p cs children) with
    | .error err => .error err
    | .ok s =>
      match add_constraint_list s i cs with
      | .error err => .error err
      | .ok s => add_user_constraints env s children
  | .vstack i p cs children =>
    match add_intrinsic_size_constraints env s (.vstack i p cs children) with
    | .error err => .error err
    | .ok s =>
      match add_constraint_list s i cs with
      | .error err => .error err
      | .ok s =>
        match add_vstack_constraints s i children p with
        | .error err => .error err
        | .ok s => add_user_constraints env s children
  | .hstack i p cs children =>
    match add_intrinsic_size_constraints env s (.hstack i p cs children) with
    | .error err => .error err
    | .ok s =>
      match add_constraint_list s i cs with
      | .error err => .error err
      | .ok s =>
        match add_hstack_constraints s i children p with
        | .error err => .error err
        | .ok s => add_user_constraints env s children
  | .zstack i p cs children =>
    match add_intrinsic_size_constraints env s (.zstack i p cs children) with
    | .error err => .error err
    | .ok s =>
      match add_constraint_list s i cs with
      | .error err => .error err
      | .ok s => add_user_constraints env s children

end

/-- solver.rs `LayoutSolver::setup_canvas_constraints`: pin the canvas
at the origin with the configured size, and define its centre, right
and bottom variables, all at `REQUIRED`. -/
def setup_canvas_constraints (s : LayoutSolver) (canvas : Canvas) :
    LayoutSolver :=
  let cs : List CConstraint :=
    [ ⟨.canvas .x, .eq, eConst 0, S_REQUIRED⟩,
      ⟨.canvas .y, .eq, eConst 0, S_REQUIRED⟩,
      ⟨.canvas .width, .eq, eConst canvas.width, S_REQUIRED⟩,
      ⟨.canvas .height, .eq, eConst canvas.height, S_REQUIRED⟩,
      ⟨.canvas .centerX, .eq, eAdd2 (.canvas .x) 1 (.canvas .width) (1/2),
        S_REQUIRED⟩,
      ⟨.canvas .centerY, .eq, eAdd2 (.canvas .y) 1 (.canvas .height) (1/2),
        S_REQUIRED⟩,
      ⟨.canvas .right, .eq, eAdd2 (.canvas .x) 1 (.canvas .width) 1,
        S_REQUIRED⟩,
      ⟨.canvas .bottom, .eq, eAdd2 (.canvas .y) 1 (.canvas .height) 1,
        S_REQUIRED⟩ ]
  { s with constraints := s.constraints ++ cs }

/-- The six derived-variable / nonnegativity constraints
`add_basic_constraints` emits for one element's variables. -/
def basic_cons (id : ElementId) : List CConstraint :=
  [ ⟨.elem id .centerX, .eq, eAdd2 (.elem id .x) 1 (.elem id .width) (1/2),
      S_REQUIRED⟩,
    ⟨.elem id .centerY, .eq, eAdd2 (.elem id .y) 1 (.elem id .height) (1/2),
      S_REQUIRED⟩,
    ⟨.elem id .right, .eq, eAdd2 (.elem id .x) 1 (.elem id .width) 1,
      S_REQUIRED⟩,
    ⟨.elem id .bottom, .eq, eAdd2 (.elem id .y) 1 (.elem id .height) 1,
      S_REQUIRED⟩,
    ⟨.elem id .width, .ge, eConst 0, S_REQUIRED⟩,
    ⟨.elem id .height, .ge, eConst 0, S_REQUIRED⟩ ]

/-- solver.rs `LayoutSolver::add_basic_constraints`: for every element
that has variables, the four derived-variable equalities and the two
`REQUIRED` nonnegativity constraints `w ≥ 0`, `h ≥ 0`. -/
def add_basic_constraints (s : LayoutSolver) : LayoutSolver :=
  { s with constraints := s.constraints ++ (s.vars.map basic_cons).flatten }

/-- The frame `extract_results` reads off the solution for one
element: `(x, y, w, h)` from that element's variables. -/
def solRect (sol : Var → ℚ) (id : ElementId) : Rect :=
  ⟨⟨sol (.elem id .x), sol (.elem id .y)⟩,
   ⟨sol (.elem id .width), sol (.elem id .height)⟩⟩

mutual

/-- solver.rs `LayoutSolver::extract_results`: read `(x, y, w, h)` for
every element from the solver's solution `sol` and record the frame. -/
def extract_results (sol : Var → ℚ) (s : LayoutSolver) :
    List Element → ComputedLayout → Except SolverError ComputedLayout
  | [], cl => .ok cl
  | e :: es, cl =>
    match extract_one sol s e cl with
    | .error err => .error err
    | .ok cl => extract_results sol s es cl

/-- One step of `extract_results` (one element and its subtree). -/
def extract_one (sol : Var → ℚ) (s : LayoutSolver) :
    Element → ComputedLayout → Except SolverError ComputedLayout
  | e, cl =>
    if e.id ∈ s.vars then
      let cl := cl.set_frame e.id (solRect sol e.id)
      match e with
      | .container _ _ _ children => extract_results sol s children cl
      | .vstack _ _ _ children => extract_results sol s children cl
      | .hstack _ _ _ children => extract_results sol s children cl
      | .zstack _ _ _ children => extract_results sol s children cl
      | _ => .ok cl
    else .error (.elementNotFound e.id)

end

/-- The constraint-building phase of solver.rs
`LayoutSolver::solve_layout`: reset, canvas constraints, variable
creation, basic constraints, then the user constraints. -/
def solve_system (env : ResourceEnv) (layout : Layout) :
    Except SolverError LayoutSolver :=
  let s := setup_canvas_constraints LayoutSolver.new layout.canvas
  let s := create_vars_list s layout.elements
  let s := add_basic_constraints s
  add_user_constraints env s layout.elements

/-- solver.rs `LayoutSolver::solve_layout`: build the system, then
extract every element's frame from cassowary's solution — modelled by
the assignment `sol` (cassowary's `get_value`). -/
def solve_layout (env : ResourceEnv) (sol : Var → ℚ) (layout : Layout) :
    Except SolverError ComputedLayout :=
  match solve_system env layout with
  | .error err => .error err
  | .ok s =>
    extract_results sol s layout.elements
      (ComputedLayout.new ⟨layout.canvas.width, layout.canvas.height⟩)

/-! ## Pixel blending (renderer.rs) -/

/-- renderer.rs `Rgba<u8>` pixel (channels as `ℕ`, meant in
`0..=255`). -/
structure Rgba where
  r : ℕ
  g : ℕ
  b : ℕ
  a : ℕ
deriving DecidableEq

/-- Rust's `as u8` cast applied to a nonneg `f32` result: truncate
toward zero and saturate at 255 (negative values saturate to 0). -/
def f32_as_u8 (q : ℚ) : ℕ :=
  min 255 (Int.toNat ⌊q⌋)

/-- renderer.rs `color_to_rgba`. -/
def color_to_rgba (c : Color) : Rgba := ⟨c.r, c.g, c.b, c.a⟩

/-- renderer.rs `alpha_blend` (the image compositing path): straight
alpha over with un-premultiplied storage, computed in rationals
modelling the `f32` arithmetic. -/
def alpha_blend (background foreground : Rgba) : Rgba :=
  let alpha_fg : ℚ := (foreground.a : ℚ) / 255
  let alpha_bg : ℚ := (background.a : ℚ) / 255
  let alpha_out : ℚ := alpha_fg + alpha_bg * (1 - alpha_fg)
  if alpha_out = 0 then ⟨0, 0, 0, 0⟩
  else
    ⟨f32_as_u8 (((foreground.r : ℚ) * alpha_fg
        + (background.r : ℚ) * alpha_bg * (1 - alpha_fg)) / alpha_out),
     f32_as_u8 (((foreground.g : ℚ) * alpha_fg
        + (background.g : ℚ) * alpha_bg * (1 - alpha_fg)) / alpha_out),
     f32_as_u8 (((foreground.b : ℚ) * alpha_fg
        + (background.b : ℚ) * alpha_bg * (1 - alpha_fg)) / alpha_out),
     f32_as_u8 (alpha_out * 255)⟩

/-- renderer.rs `blend_colors` (the text glyph path): linear blend of
all four channels with the glyph coverage `alpha / 255` as the factor;
the foreground's own alpha is blended like a colour channel and does
not modulate the factor. -/
def blend_colors (background foreground : Rgba) (alpha : ℕ) : Rgba :=
  let alpha_f : ℚ := (alpha : ℚ) / 255
  let inv_alpha : ℚ := 1 - alpha_f
  ⟨f32_as_u8 ((foreground.r : ℚ) * alpha_f + (background.r : ℚ) * inv_alpha),
   f32_as_u8 ((foreground.g : ℚ) * alpha_f + (background.g : ℚ) * inv_alpha),
   f32_as_u8 ((foreground.b : ℚ) * alpha_f + (background.b : ℚ) * inv_alpha),
   f32_as_u8 ((foreground.a : ℚ) * alpha_f + (background.a : ℚ) * inv_alpha)⟩

/-- Modelled from the spec, for comparison with `blend_colors` (§4.2
step 3 together with the §4.3 over formula): blend the foreground
colour over the destination using `(α × foreground.a)/255` as the
effective 8-bit alpha. -/
def spec_text_blend (background foreground : Rgba) (alpha : ℕ) : Rgba :=
  let af : ℚ := ((alpha : ℚ) * (foreground.a : ℚ) / 255) / 255
  let ab : ℚ := (background.a : ℚ) / 255
  let ao : ℚ := af + ab * (1 - af)
  if ao = 0 then ⟨0, 0, 0, 0⟩
  else
    ⟨f32_as_u8 (((foreground.r : ℚ) * af
        + (background.r : ℚ) * ab * (1 - af)) / ao),
     f32_as_u8 (((foreground.g : ℚ) * af
        + (background.g : ℚ) * ab * (1 - af)) / ao),
     f32_as_u8 (((foreground.b : ℚ) * af
        + (background.b : ℚ) * ab * (1 - af)) / ao),
     f32_as_u8 (ao * 255)⟩

/-! ## The DSL size-constraint conversion (dsl.rs)

`convert_size_constraint` parses `"NN%"` and divides by 100; its
numeric payload is modelled post-parse. -/

/-- dsl.rs `SizeConstraint`. -/
inductive SizeConstraint
  | fixed (value : ℚ)
  | auto
  | percentage (value : ℚ)
  | relative (target : ElementId) (multiplier : ℚ)
deriving DecidableEq

/-- dsl.rs `DslSize` (with the percentage token already parsed to its
numeric value, e.g. `"50%" ↦ 50`). -/
inductive DslSize
  | fixed (value : ℚ)
  | auto
  | percentage (value : ℚ)
deriving DecidableEq

/-- dsl.rs `DslParser::convert_size_constraint`: a percentage token's
number is normalized by dividing by 100. -/
def convert_size_constraint : DslSize → SizeConstraint
  | .fixed v => .fixed v
  | .auto => .auto
  | .percentage v => .percentage (v / 100)

/-- The `Width` arm of dsl.rs `DslParser::convert_constraint`: how a
`SizeConstraint` is packed into `ConstraintType::Width`. -/
def convert_width_constraint : SizeConstraint → ConstraintType
  | .fixed v => .width (some v) none 1 none
  | .percentage p => .width none none 1 (some p)
  | .relative t m => .width none (some t) m none
  | .auto => .width none none 1 none

/-- The `Height` arm of dsl.rs `DslParser::convert_constraint`. -/
def convert_height_constraint : SizeConstraint → ConstraintType
  | .fixed v => .height (some v) none 1 none
  | .percentage p => .height none none 1 (some p)
  | .relative t m => .height none (some t) m none
  | .auto => .height none none 1 none

/-! ## Concrete fixtures for witnesses and counterexamples -/

/-- A concrete font: every glyph has an empty bounding box and zero
advance. -/
def trivialFont : FontModel :=
  ⟨fun _ _ pen => (⟨none, none⟩, pen)⟩

/-- An environment in which no image can be opened and the bundled
font parses. -/
def envNoImages : ResourceEnv :=
  ⟨fun _ => none, some trivialFont⟩

/-- An environment in which every image decodes to 40×30 and the
bundled font parses. -/
def envAllRes : ResourceEnv :=
  ⟨fun _ => some ⟨40, 30⟩, some trivialFont⟩

/-- A solver state that knows the elements `"a"` and `"b"` and holds
no constraints. -/
def stAB : LayoutSolver := ⟨[], ["a", "b"], [], []⟩

/-- The all-zero assignment. -/
def solZero : Var → ℚ := fun _ => 0

/-- A solver state that knows the elements `"text"` and `"container"`. -/
def stTC : LayoutSolver := ⟨[], ["text", "container"], [], []⟩

/-- An assignment giving the container width 500 and the text the
width the emitted percent constraint actually forces. -/
def aPercent : Var → ℚ := fun v =>
  if v = .elem "container" .width then 500
  else if v = .elem "text" .width then 5 / 2
  else 0

/-- An assignment giving the container width 500 and the text the
width the specification expects (250). -/
def aPercentSpec : Var → ℚ := fun v =>
  if v = .elem "container" .width then 500
  else if v = .elem "text" .width then 250
  else 0

/-- Text properties: 16 px font, line height 2.0, family `"Arial"`. -/
def props16 : TextProperties :=
  ⟨16, .normal, "Arial", ⟨0, 0, 0, 255⟩, .leading, 2, 0, none, .wordWrap⟩

/-- A solver state that knows only the element `"t"`. -/
def stT : LayoutSolver := ⟨[], ["t"], [], []⟩

/-- A single explicit-width constraint at Low priority. -/
def csLowWidth : List Constraint := [⟨.width (some 100) none 1 none, .low⟩]

/-- Default-ish image properties. -/
def propsImg : ImageProperties := ⟨none, 0, 1, none⟩

/-- A scene whose only element is an image whose source cannot be
opened under `envNoImages`. -/
def layoutImg : Layout :=
  ⟨"1.0", ⟨200, 200, ⟨255, 255, 255, 255⟩⟩,
   [.image "img" "missing.png" propsImg []]⟩

/-- A scene with a single constraint-free container on a 0×0 canvas
(its required constraints are satisfied by the zero assignment). -/
def layoutC9 : Layout :=
  ⟨"1.0", ⟨0, 0, ⟨0, 0, 0, 0⟩⟩,
   [.container "c" ⟨⟨0, 0, 0, 0⟩, 0, 0, ⟨0, 0, 0, 255⟩, 1⟩ [] []]⟩

/-- The constraint system `layoutC9` produces. -/
def stC9 : LayoutSolver :=
  (solve_system envNoImages layoutC9).toOption.getD LayoutSolver.new

/-- The computed layout of `layoutC9` under the zero assignment. -/
def clC9 : ComputedLayout :=
  (solve_layout envNoImages solZero layoutC9).toOption.getD
    (ComputedLayout.new ⟨0, 0⟩)

/-- Two spacer children for a VStack fixture. -/
def spacerA : Element := .spacer "a" 0 .required []

/-- Second spacer child. -/
def spacerB : Element := .spacer "b" 0 .required []

/-- A solver state that knows the stack `"v"` and its children. -/
def stV : LayoutSolver := ⟨[], ["v", "a", "b"], [], []⟩

/-- VStack properties with spacing 10 and centre alignment. -/
def propsV : StackProperties := ⟨10, .center, .fill⟩

/-- The state after adding the VStack constraints of the fixture. -/
def stV' : LayoutSolver :=
  (add_vstack_constraints stV "v" [spacerA, spacerB] propsV).toOption.getD
    LayoutSolver.new

/-- The state only grows: the constraint list is extended at the end
and the variable set is untouched.  Every solver operation after
variable creation preserves this relation. -/
def solverLe (s s' : LayoutSolver) : Prop :=
  s.constraints <+: s'.constraints ∧ s'.vars = s.vars

/-! ## Basic lemmas about the embedding -/

theorem solverLe_refl (s : LayoutSolver) : solverLe s s :=
  ⟨List.prefix_refl _, rfl⟩

theorem solverLe_trans {s1 s2 s3 : LayoutSolver} (h1 : solverLe s1 s2)
    (h2 : solverLe s2 s3) : solverLe s1 s3 :=
  ⟨h1.1.trans h2.1, h2.2.trans h1.2⟩

theorem solverLe_emit (s : LayoutSolver) (c : CConstraint) :
    solverLe s (emit s c) :=
  ⟨List.prefix_append _ _, rfl⟩

theorem solverLe_mem {s s' : LayoutSolver} (h : solverLe s s')
    {c : CConstraint} (hc : c ∈ s.constraints) : c ∈ s'.constraints :=
  h.1.subset hc

theorem emit_mem (s : LayoutSolver) (c : CConstraint) :
    c ∈ (emit s c).constraints := by
  simp [emit]

theorem evalExpr_eConst (a : Var → ℚ) (c : ℚ) : evalExpr a (eConst c) = c := by
  simp [evalExpr, eConst]

theorem evalExpr_eVar (a : Var → ℚ) (v : Var) : evalExpr a (eVar v) = a v := by
  simp [evalExpr, eVar]

theorem evalExpr_eVarPlus (a : Var → ℚ) (v : Var) (c : ℚ) :
    evalExpr a (eVarPlus v c) = a v + c := by
  simp [evalExpr, eVarPlus]

theorem evalExpr_eVarMul (a : Var → ℚ) (v : Var) (k : ℚ) :
    evalExpr a (eVarMul v k) = a v * k := by
  simp [evalExpr, eVarMul]

theorem evalExpr_eAdd2 (a : Var → ℚ) (v1 v2 : Var) (k1 k2 : ℚ) :
    evalExpr a (eAdd2 v1 k1 v2 k2) = a v1 * k1 + a v2 * k2 := by
  simp [evalExpr, eAdd2, add_assoc]

theorem f32_as_u8_natCast (n : ℕ) (h : n ≤ 255) : f32_as_u8 (n : ℚ) = n := by
  simp [f32_as_u8, Int.floor_natCast, h, min_eq_right]

/-! ## Claim theorems -/

/-- C10: a `Width` or `Height` constraint whose `value` and `target`
are both `None` — the form the DSL produces for `"auto"` sizes and for
untargeted percentage sizes like `"50%"` — adds no constraint to the
system and returns `Ok`: it is silently ignored. -/
theorem C10_untargeted_size_ignored (s : LayoutSolver) (id : ElementId)
    (m : ℚ) (p : Option ℚ) (prio : Priority) (hid : id ∈ s.vars) :
    add_constraint s id ⟨.width none none m p, prio⟩ = .ok s ∧
    add_constraint s id ⟨.height none none m p, prio⟩ = .ok s ∧
    convert_width_constraint (convert_size_constraint .auto) =
      .width none none 1 none ∧
    convert_width_constraint (convert_size_constraint (.percentage 50)) =
      .width none none 1 (some (1 / 2)) := by
  refine ⟨?_, ?_, rfl, ?_⟩
  · simp [add_constraint, lower_constraint, hid]
  · simp [add_constraint, lower_constraint, hid]
  · norm_num [convert_size_constraint, convert_width_constraint]

/-- Witness for C10 at a concrete solver state and constraint. -/
theorem C10_untargeted_size_ignored_witness :
    add_constraint stAB "a" ⟨.width none none 1 (some 50), .medium⟩ = .ok stAB ∧
    add_constraint stAB "a" ⟨.height none none 1 (some 50), .medium⟩ = .ok stAB ∧
    convert_width_constraint (convert_size_constraint .auto) =
      .width none none 1 none ∧
    convert_width_constraint (convert_size_constraint (.percentage 50)) =
      .width none none 1 (some (1 / 2)) :=
  C10_untargeted_size_ignored stAB "a" 1 (some 50) .medium (by decide)

/-- C3 counterexample: an `AlignTop` constraint whose target `"b"` is
a known peer is not lowered to an edge equality; `add_constraint`
returns `InvalidConstraint` (the fallthrough arm), so the solve fails
on account of the constraint. -/
theorem C3_align_lowering_cex :
    add_constraint stAB "a" ⟨.alignTop "b", .required⟩ =
      .error (.invalidConstraint "Unsupported constraint type") := rfl

/-- C3 amended: `AlignTop`/`AlignBottom`/`AlignLeading`/
`AlignTrailing` are never lowered; for any node with variables, any
target and any priority, `add_constraint` hits the fallthrough arm and
returns `InvalidConstraint("Unsupported constraint type")`, failing
the solve. -/
theorem C3_align_unsupported (s : LayoutSolver) (id target : ElementId)
    (prio : Priority) (hid : id ∈ s.vars) :
    add_constraint s id ⟨.alignTop target, prio⟩ =
      .error (.invalidConstraint "Unsupported constraint type") ∧
    add_constraint s id ⟨.alignBottom target, prio⟩ =
      .error (.invalidConstraint "Unsupported constraint type") ∧
    add_constraint s id ⟨.alignLeading target, prio⟩ =
      .error (.invalidConstraint "Unsupported constraint type") ∧
    add_constraint s id ⟨.alignTrailing target, prio⟩ =
      .error (.invalidConstraint "Unsupported constraint type") := by
  refine ⟨?_, ?_, ?_, ?_⟩ <;>
    simp [add_constraint, lower_constraint, hid]

/-- Witness for C3's amended statement at a concrete input. -/
theorem C3_align_unsupported_witness :
    add_constraint stAB "a" ⟨.alignTop "b", .high⟩ =
      .error (.invalidConstraint "Unsupported constraint type") ∧
    add_constraint stAB "a" ⟨.alignBottom "b", .high⟩ =
      .error (.invalidConstraint "Unsupported constraint type") ∧
    add_constraint stAB "a" ⟨.alignLeading "b", .high⟩ =
      .error (.invalidConstraint "Unsupported constraint type") ∧
    add_constraint stAB "a" ⟨.alignTrailing "b", .high⟩ =
      .error (.invalidConstraint "Unsupported constraint type") :=
  C3_align_unsupported stAB "a" "b" .high (by decide)

/-- C1: the percent size pipeline divides by 100 twice.  The DSL
normalizes `"50%"` to `0.5` (`convert_size_constraint`), but the
solver's `Width { target, percent }` arm multiplies by
`percent / 100` again, so the emitted equation is
`text.w = container.w × 0.005`: with `container.w = 500` the solution
forced on the text is `2.5`, while the claim (and the DSL's
normalization) expects `text.w = container.w × 0.5 = 250`. -/
theorem C1_percent_double_division :
    convert_size_constraint (.percentage 50) = .percentage (1 / 2) ∧
    add_constraint stTC "text"
        ⟨.width none (some "container") 1 (some (1 / 2)), .required⟩ =
      .ok (emit stTC ⟨.elem "text" .width, .eq,
        eVarMul (.elem "container" .width) (1 / 200), S_REQUIRED⟩) ∧
    satisfies aPercent ⟨.elem "text" .width, .eq,
      eVarMul (.elem "container" .width) (1 / 200), S_REQUIRED⟩ ∧
    ¬ satisfies aPercentSpec ⟨.elem "text" .width, .eq,
      eVarMul (.elem "container" .width) (1 / 200), S_REQUIRED⟩ := by
  refine ⟨by norm_num [convert_size_constraint], ?_, ?_, ?_⟩
  · simp [add_constraint, lower_constraint, targetVar, stTC, emit,
      priority_to_strength, Except.bind, bind]
    norm_num
  · simp [satisfies, aPercent, evalExpr, eVarMul]
    norm_num
  · simp [satisfies, aPercentSpec, evalExpr, eVarMul]
    norm_num

/-- C5 counterexample: a Text node with `content=""`, `font_size=16`
and `line_height=2.0` gets intrinsic width 0 but intrinsic height
`16 × 1.2 = 19.2` — the hard-coded 1.2 line factor, not
`font_size × line_height = 32` as the claim states. -/
theorem C5_empty_text_height_cex :
    (add_intrinsic_size_constraints envNoImages stT
        (.text "t" "" props16 [])).map (fun s => s.constraints) =
      .ok [⟨.elem "t" .width, .eq, eConst 0, S_MEDIUM⟩,
           ⟨.elem "t" .height, .eq, eConst (96 / 5), S_MEDIUM⟩] ∧
    props16.font_size * props16.line_height = 32 ∧
    (96 / 5 : ℚ) ≠ 32 := by
  refine ⟨?_, by norm_num [props16], by norm_num⟩
  have hdata : "".data = [] := rfl
  simp [add_intrinsic_size_constraints, has_width_value, has_height_value,
    load_font, envNoImages, stT, trivialFont, measure_text_width,
    layoutGlyphs, hdata, emit, Except.bind, bind, Except.map, List.lookup,
    props16]
  norm_num

/-- C5 amended: for a Text node with `content=""` and no explicit size
constraints, the intrinsic constraints emitted at `MEDIUM` strength
are width 0 and height `font_size × 1.2` — the node's `line_height`
property is not consulted. -/
theorem C5_empty_text_intrinsic (s : LayoutSolver) (id : ElementId)
    (props : TextProperties) (f : FontModel) (env : ResourceEnv)
    (hid : id ∈ s.vars) (hfonts : s.fonts.lookup props.font_family = none)
    (hbundle : env.bundledFont = some f) :
    add_intrinsic_size_constraints env s (.text id "" props []) =
      .ok { s with
            fonts := (props.font_family, f) :: s.fonts
            constraints := s.constraints ++
              [⟨.elem id .width, .eq, eConst 0, S_MEDIUM⟩,
               ⟨.elem id .height, .eq, eConst (props.font_size * (6 / 5)),
                 S_MEDIUM⟩] } := by
  have hdata : "".data = [] := rfl
  simp [add_intrinsic_size_constraints, has_width_value, has_height_value,
    load_font, hfonts, hbundle, hid, measure_text_width, layoutGlyphs,
    hdata, emit, Except.bind, bind, List.lookup]

/-- Witness for C5's amended statement at a concrete input. -/
theorem C5_empty_text_intrinsic_witness :
    add_intrinsic_size_constraints envNoImages stT (.text "t" "" props16 []) =
      .ok { stT with
            fonts := (props16.font_family, trivialFont) :: stT.fonts
            constraints := stT.constraints ++
              [⟨.elem "t" .width, .eq, eConst 0, S_MEDIUM⟩,
               ⟨.elem "t" .height, .eq, eConst (props16.font_size * (6 / 5)),
                 S_MEDIUM⟩] } :=
  C5_empty_text_intrinsic stT "t" props16 trivialFont envNoImages
    (by decide) rfl rfl

/-- C4 counterexample: the fixture constraint list carries a single
explicit `Width{value=100}` at Low priority — no Required-strength
explicit size — yet no intrinsic width constraint is emitted (only the
intrinsic height is): an explicit size at a lower priority does
suppress the intrinsic constraint, contrary to the claim. -/
theorem C4_low_priority_suppresses_cex :
    (∀ c ∈ csLowWidth, c.priority ≠ .required) ∧
    (add_intrinsic_size_constraints envNoImages stT
        (.text "t" "hi" props16 csLowWidth)).map (fun s => s.constraints) =
      .ok [⟨.elem "t" .height, .eq, eConst (96 / 5), S_MEDIUM⟩] := by
  refine ⟨by decide, ?_⟩
  simp [add_intrinsic_size_constraints, has_width_value, has_height_value,
    csLowWidth, load_font, envNoImages, stT, emit, Except.bind, bind,
    Except.map, List.lookup, props16]
  norm_num

/-- C4 amended: for a Text node, the intrinsic width (resp. height)
constraint is emitted at `MEDIUM` strength exactly when the node has
no explicit `Width{value=…}` (resp. `Height{value=…}`) constraint of
any priority — the priority of an explicit size is not consulted, so
an explicit size at Low priority suppresses the intrinsic constraint
just as a Required one does. -/
theorem C4_any_explicit_value_suppresses (s : LayoutSolver) (id : ElementId)
    (content : String) (props : TextProperties) (cs : List Constraint)
    (f : FontModel) (env : ResourceEnv) (hid : id ∈ s.vars)
    (hfonts : s.fonts.lookup props.font_family = none)
    (hbundle : env.bundledFont = some f) :
    (has_width_value cs = true → has_height_value cs = true →
      add_intrinsic_size_constraints env s (.text id content props cs) =
        .ok s) ∧
    (¬(has_width_value cs = true ∧ has_height_value cs = true) →
      add_intrinsic_size_constraints env s (.text id content props cs) =
        .ok { s with
          fonts := (props.font_family, f) :: s.fonts
          constraints := s.constraints ++
            ((if has_width_value cs = true then [] else
                [⟨.elem id .width, .eq,
                  eConst (measure_text_width f content props.font_size),
                  S_MEDIUM⟩]) ++
             (if has_height_value cs = true then [] else
                [⟨.elem id .height, .eq,
                  eConst (props.font_size * (6 / 5)), S_MEDIUM⟩])) }) := by
  cases hw : has_width_value cs <;> cases hh : has_height_value cs <;>
    simp [add_intrinsic_size_constraints, hw, hh, load_font, hfonts,
      hbundle, hid, emit, Except.bind, bind, List.lookup]

/-- Witness for C4's amended statement at the Low-priority fixture. -/
theorem C4_any_explicit_value_suppresses_witness :
    (has_width_value csLowWidth = true → has_height_value csLowWidth = true →
      add_intrinsic_size_constraints envNoImages stT
          (.text "t" "hi" props16 csLowWidth) = .ok stT) ∧
    (¬(has_width_value csLowWidth = true ∧
        has_height_value csLowWidth = true) →
      add_intrinsic_size_constraints envNoImages stT
          (.text "t" "hi" props16 csLowWidth) =
        .ok { stT with
          fonts := (props16.font_family, trivialFont) :: stT.fonts
          constraints := stT.constraints ++
            ((if has_width_value csLowWidth = true then [] else
                [⟨.elem "t" .width, .eq,
                  eConst (measure_text_width trivialFont "hi"
                    props16.font_size), S_MEDIUM⟩]) ++
             (if has_height_value csLowWidth = true then [] else
                [⟨.elem "t" .height, .eq,
                  eConst (props16.font_size * (6 / 5)), S_MEDIUM⟩])) }) :=
  C4_any_explicit_value_suppresses stT "t" "hi" props16 csLowWidth
    trivialFont envNoImages (by decide) rfl rfl

/-- C6 counterexample: at full coverage (`α = 255`) a text colour with
alpha 0 and white rgb completely replaces an opaque black destination
— `blend_colors` uses the coverage alone as the blend factor, whereas
the claimed rule (effective alpha `(α × foreground.a)/255 = 0`, then
the §4.3 over formula, `spec_text_blend`) would leave the destination
unchanged. -/
theorem C6_fg_alpha_ignored_cex :
    blend_colors ⟨0, 0, 0, 255⟩ ⟨255, 255, 255, 0⟩ 255 =
      ⟨255, 255, 255, 0⟩ ∧
    spec_text_blend ⟨0, 0, 0, 255⟩ ⟨255, 255, 255, 0⟩ 255 =
      ⟨0, 0, 0, 255⟩ ∧
    (⟨255, 255, 255, 0⟩ : Rgba) ≠ ⟨0, 0, 0, 255⟩ := by
  refine ⟨?_, ?_, by decide⟩ <;>
    norm_num [blend_colors, spec_text_blend, f32_as_u8]

/-- C6 amended: the glyph blend factor is the coverage `α/255` alone.
The rgb channels of `blend_colors` do not depend on the foreground's
alpha at all, and at full coverage the output rgb equals the
foreground rgb whatever the foreground alpha is — so a text colour
with alpha 0 still contributes its full rgb, contrary to the claimed
`(α × foreground.a)/255` effective alpha. -/
theorem C6_coverage_only_blend (bg fg : Rgba) (α fa : ℕ)
    (hr : fg.r ≤ 255) (hg : fg.g ≤ 255) (hb : fg.b ≤ 255) :
    ((blend_colors bg ⟨fg.r, fg.g, fg.b, fa⟩ α).r =
        (blend_colors bg fg α).r ∧
     (blend_colors bg ⟨fg.r, fg.g, fg.b, fa⟩ α).g =
        (blend_colors bg fg α).g ∧
     (blend_colors bg ⟨fg.r, fg.g, fg.b, fa⟩ α).b =
        (blend_colors bg fg α).b) ∧
    (blend_colors bg fg 255).r = fg.r ∧
    (blend_colors bg fg 255).g = fg.g ∧
    (blend_colors bg fg 255).b = fg.b := by
  have h255 : ((255 : ℕ) : ℚ) / 255 = 1 := by norm_num
  refine ⟨⟨rfl, rfl, rfl⟩, ?_, ?_, ?_⟩ <;>
    simp [blend_colors, h255, f32_as_u8_natCast, hr, hg, hb]

/-- Witness for C6's amended statement at a concrete input. -/
theorem C6_coverage_only_blend_witness :
    ((blend_colors ⟨5, 6, 7, 255⟩ ⟨10, 20, 30, 0⟩ 128).r =
        (blend_colors ⟨5, 6, 7, 255⟩ ⟨10, 20, 30, 40⟩ 128).r ∧
     (blend_colors ⟨5, 6, 7, 255⟩ ⟨10, 20, 30, 0⟩ 128).g =
        (blend_colors ⟨5, 6, 7, 255⟩ ⟨10, 20, 30, 40⟩ 128).g ∧
     (blend_colors ⟨5, 6, 7, 255⟩ ⟨10, 20, 30, 0⟩ 128).b =
        (blend_colors ⟨5, 6, 7, 255⟩ ⟨10, 20, 30, 40⟩ 128).b) ∧
    (blend_colors ⟨5, 6, 7, 255⟩ ⟨10, 20, 30, 40⟩ 255).r = 10 ∧
    (blend_colors ⟨5, 6, 7, 255⟩ ⟨10, 20, 30, 40⟩ 255).g = 20 ∧
    (blend_colors ⟨5, 6, 7, 255⟩ ⟨10, 20, 30, 40⟩ 255).b = 30 :=
  C6_coverage_only_blend ⟨5, 6, 7, 255⟩ ⟨10, 20, 30, 40⟩ 128 0
    (by decide) (by decide) (by decide)

/-- C7 counterexample: in the text glyph path, a foreground pixel with
alpha 0 composited at full coverage over a destination with alpha 255
yields output alpha 0, not 255. -/
theorem C7_text_path_alpha_cex :
    (blend_colors ⟨0, 0, 0, 255⟩ ⟨0, 0, 0, 0⟩ 255).a = 0 ∧
    (0 : ℕ) ≠ 255 := by
  refine ⟨?_, by decide⟩
  norm_num [blend_colors, f32_as_u8]

/-- C7 amended: over a destination pixel with alpha 255, the image
path (`alpha_blend`) always produces output alpha exactly 255, for
every foreground pixel; the text glyph path (`blend_colors`) does so
only when the foreground colour itself has alpha 255 (its output alpha
is the blend `fg.a·(α/255) + 255·(1 − α/255)`, which drops below 255
whenever `α > 0` and `fg.a < 255`). -/
theorem C7_opaque_dest_alpha (bg fg : Rgba) (α : ℕ) (hbg : bg.a = 255) :
    (alpha_blend bg fg).a = 255 ∧
    (fg.a = 255 → (blend_colors bg fg α).a = 255) := by
  constructor
  · have hout : (fg.a : ℚ) / 255 + (bg.a : ℚ) / 255 * (1 - (fg.a : ℚ) / 255)
        = 1 := by
      rw [hbg]; push_cast; ring_nf
    simp only [alpha_blend, hout]
    norm_num [f32_as_u8]
  · intro hfa
    have hout : (fg.a : ℚ) * ((α : ℚ) / 255)
        + (bg.a : ℚ) * (1 - (α : ℚ) / 255) = 255 := by
      rw [hfa, hbg]; push_cast; ring_nf
    simp only [blend_colors, hout]
    norm_num [f32_as_u8]

/-- Witness for C7's amended statement at a concrete input. -/
theorem C7_opaque_dest_alpha_witness :
    (alpha_blend ⟨9, 9, 9, 255⟩ ⟨1, 2, 3, 77⟩).a = 255 ∧
    ((⟨1, 2, 3, 77⟩ : Rgba).a = 255 →
      (blend_colors ⟨9, 9, 9, 255⟩ ⟨1, 2, 3, 77⟩ 100).a = 255) :=
  C7_opaque_dest_alpha ⟨9, 9, 9, 255⟩ ⟨1, 2, 3, 77⟩ 100 rfl

theorem vstack_loop_mono (sid : ElementId) (sp : ℚ) (al : Alignment) :
    ∀ (children : List Element) (s : LayoutSolver) (prev : Option ElementId)
      (s' : LayoutSolver),
      vstack_loop sid sp al s prev children = .ok s' → solverLe s s' := by
  intro children
  induction children with
  | nil =>
    intro s prev s' h
    simp only [vstack_loop] at h
    cases h
    exact solverLe_refl _
  | cons child rest ih =>
    intro s prev s' h
    simp only [vstack_loop] at h
    split at h
    · cases prev <;> cases al <;>
        exact solverLe_trans
          (solverLe_trans (solverLe_emit _ _)
            (by first
              | exact solverLe_emit _ _
              | exact solverLe_refl _))
          (ih _ _ _ h)
    · cases h

theorem vstack_loop_first (sid : ElementId) (sp : ℚ) (al : Alignment)
    (child : Element) (rest : List Element) (s s' : LayoutSolver)
    (h : vstack_loop sid sp al s none (child :: rest) = .ok s') :
    (⟨.elem child.id .y, .eq, eVar (.elem sid .y), S_REQUIRED⟩ :
      CConstraint) ∈ s'.constraints := by
  simp only [vstack_loop] at h
  split at h
  · cases al <;>
      exact solverLe_mem
        (solverLe_trans
          (by first | exact solverLe_emit _ _ | exact solverLe_refl _)
          (vstack_loop_mono _ _ _ _ _ _ _ h))
        (emit_mem _ _)
  · cases h

theorem vstack_loop_consec (sid : ElementId) (sp : ℚ) (al : Alignment)
    (p : ElementId) (child : Element) (rest : List Element)
    (s s' : LayoutSolver)
    (h : vstack_loop sid sp al s (some p) (child :: rest) = .ok s') :
    (⟨.elem child.id .y, .eq, eVarPlus (.elem p .bottom) sp, S_REQUIRED⟩ :
      CConstraint) ∈ s'.constraints := by
  simp only [vstack_loop] at h
  split at h
  · cases al <;>
      exact solverLe_mem
        (solverLe_trans
          (by first | exact solverLe_emit _ _ | exact solverLe_refl _)
          (vstack_loop_mono _ _ _ _ _ _ _ h))
        (emit_mem _ _)
  · cases h

theorem vstack_loop_pairs (sid : ElementId) (sp : ℚ) (al : Alignment) :
    ∀ (children : List Element) (s : LayoutSolver) (prev : Option ElementId)
      (s' : LayoutSolver),
      vstack_loop sid sp al s prev children = .ok s' →
      ∀ i (hi : i + 1 < children.length),
        (⟨.elem (children[i + 1].id) .y, .eq,
          eVarPlus (.elem (children[i].id) .bottom) sp, S_REQUIRED⟩ :
          CConstraint) ∈ s'.constraints := by
  intro children
  induction children with
  | nil =>
    intro s prev s' _ i hi
    simp at hi
  | cons child rest ih =>
    intro s prev s' h i hi
    have hstep : ∃ s2, vstack_loop sid sp al s2 (some child.id) rest = .ok s'
        ∧ solverLe s s2 := by
      simp only [vstack_loop] at h
      split at h
      · refine ⟨_, h, ?_⟩
        cases prev <;> cases al <;>
          exact solverLe_trans (solverLe_emit _ _)
            (by first
              | exact solverLe_emit _ _
              | exact solverLe_refl _)
      · cases h
    obtain ⟨s2, h2, _⟩ := hstep
    cases i with
    | zero =>
      cases rest with
      | nil => simp at hi
      | cons r0 rest' =>
        simpa using vstack_loop_consec sid sp al child.id r0 rest' s2 s' h2
    | succ i' =>
      have hi' : i' + 1 < rest.length := by
        simpa [Nat.succ_lt_succ_iff] using hi
      simpa using ih s2 (some child.id) s' h2 i' hi'

/-- C8: for a VStack with children `c[0..n-1]` (`n ≥ 1`) and spacing
`s`, the solver emits at `REQUIRED` strength `c[0].y = stack.y`, for
every `i > 0` the equation `c[i].y = c[i−1].bottom + s`, and
`stack.h = last.bottom − stack.y`; consequently every assignment
satisfying the emitted system puts consecutive children exactly `s`
apart: `y(c[i]) − bottom(c[i−1]) = s`. -/
theorem C8_vstack_emits (s : LayoutSolver) (stack_id : ElementId)
    (children : List Element) (props : StackProperties) (s' : LayoutSolver)
    (hne : children ≠ [])
    (hok : add_vstack_constraints s stack_id children props = .ok s') :
    (∀ c0 ∈ children.head?,
      (⟨.elem c0.id .y, .eq, eVar (.elem stack_id .y), S_REQUIRED⟩ :
        CConstraint) ∈ s'.constraints) ∧
    (∀ i (hi : i + 1 < children.length),
      (⟨.elem (children[i + 1].id) .y, .eq,
        eVarPlus (.elem (children[i].id) .bottom) props.spacing,
        S_REQUIRED⟩ : CConstraint) ∈ s'.constraints) ∧
    (∀ lastc ∈ children.getLast?,
      (⟨.elem stack_id .height, .eq,
        eAdd2 (.elem lastc.id .bottom) 1 (.elem stack_id .y) (-1),
        S_REQUIRED⟩ : CConstraint) ∈ s'.constraints) ∧
    (∀ a : Var → ℚ, (∀ c ∈ s'.constraints, satisfies a c) →
      ∀ i (hi : i + 1 < children.length),
        a (.elem (children[i + 1].id) .y) =
          a (.elem (children[i].id) .bottom) + props.spacing) := by
  simp only [add_vstack_constraints] at hok
  split at hok
  case isTrue hemp => exact absurd (List.isEmpty_iff.mp hemp) hne
  case isFalse =>
  split at hok
  case isFalse => cases hok
  case isTrue hsid =>
  split at hok
  case h_1 e heq => cases hok
  case h_2 sL hloop =>
  split at hok
  case h_1 hlast => exact absurd (List.getLast?_eq_none_iff.mp hlast) hne
  case h_2 lastc hlast =>
  split at hok
  case isFalse => cases hok
  case isTrue hlmem =>
  cases hok
  have hpair : ∀ i (hi : i + 1 < children.length),
      (⟨.elem (children[i + 1].id) .y, .eq,
        eVarPlus (.elem (children[i].id) .bottom) props.spacing,
        S_REQUIRED⟩ : CConstraint) ∈
        (emit sL ⟨.elem stack_id .height, .eq,
          eAdd2 (.elem lastc.id .bottom) 1 (.elem stack_id .y) (-1),
          S_REQUIRED⟩).constraints := fun i hi =>
    solverLe_mem (solverLe_emit _ _)
      (vstack_loop_pairs _ _ _ _ _ _ _ hloop i hi)
  refine ⟨?_, hpair, ?_, ?_⟩
  · intro c0 hc0
    cases children with
    | nil => exact absurd rfl hne
    | cons ch rest =>
      simp only [List.head?_cons, Option.mem_def, Option.some.injEq] at hc0
      subst hc0
      exact solverLe_mem (solverLe_emit _ _)
        (vstack_loop_first _ _ _ _ _ _ _ hloop)
  · intro lastc' hl
    rw [hlast] at hl
    simp only [Option.mem_def, Option.some.injEq] at hl
    subst hl
    exact emit_mem _ _
  · intro a ha i hi
    have hs := ha _ (hpair i hi)
    simpa [satisfies, evalExpr_eVarPlus] using hs

/-- Witness for C8 at a two-child VStack fixture. -/
theorem C8_vstack_emits_witness :
    (∀ c0 ∈ ([spacerA, spacerB] : List Element).head?,
      (⟨.elem c0.id .y, .eq, eVar (.elem "v" .y), S_REQUIRED⟩ :
        CConstraint) ∈ stV'.constraints) ∧
    (∀ i (hi : i + 1 < ([spacerA, spacerB] : List Element).length),
      (⟨.elem (([spacerA, spacerB] : List Element)[i + 1].id) .y, .eq,
        eVarPlus (.elem (([spacerA, spacerB] : List Element)[i].id) .bottom)
          propsV.spacing, S_REQUIRED⟩ : CConstraint) ∈ stV'.constraints) ∧
    (∀ lastc ∈ ([spacerA, spacerB] : List Element).getLast?,
      (⟨.elem "v" .height, .eq,
        eAdd2 (.elem lastc.id .bottom) 1 (.elem "v" .y) (-1),
        S_REQUIRED⟩ : CConstraint) ∈ stV'.constraints) ∧
    (∀ a : Var → ℚ, (∀ c ∈ stV'.constraints, satisfies a c) →
      ∀ i (hi : i + 1 < ([spacerA, spacerB] : List Element).length),
        a (.elem (([spacerA, spacerB] : List Element)[i + 1].id) .y) =
          a (.elem (([spacerA, spacerB] : List Element)[i].id) .bottom) +
            propsV.spacing) :=
  C8_vstack_emits stV "v" [spacerA, spacerB] propsV stV'
    (by simp) rfl

/-- C2 counterexample: a scene whose only element is an Image whose
source cannot be opened makes `solve_layout` return an error — there
is no 100×100 placeholder fallback. -/
theorem C2_image_failure_cex :
    solve_layout envNoImages solZero layoutImg =
      .error (.constraintErr "Failed to load image missing.png") := rfl

/-- C2 amended: fonts do fall back (the requested family is never
opened; `load_font` always parses the bundled DejaVu Sans face and
stores it under the requested family name), but an Image whose source
cannot be opened is fatal: `load_image`'s error propagates out of
`add_intrinsic_size_constraints`, so `solve_layout` returns
`Err(ConstraintError)` instead of falling back to a 100×100
placeholder. -/
theorem C2_resource_failure (env : ResourceEnv) (s : LayoutSolver)
    (fam : String) (f : FontModel) (sol : Var → ℚ) (ver : String)
    (canvas : Canvas) (id : ElementId) (src : String)
    (props : ImageProperties)
    (hbundle : env.bundledFont = some f)
    (hfonts : s.fonts.lookup fam = none)
    (hopen : env.openImage src = none) :
    load_font env s fam = .ok { s with fonts := (fam, f) :: s.fonts } ∧
    solve_layout env sol ⟨ver, canvas, [.image id src props []]⟩ =
      .error (.constraintErr ("Failed to load image " ++ src)) := by
  constructor
  · simp [load_font, hfonts, hbundle]
  · simp [solve_layout, solve_system, setup_canvas_constraints,
      create_vars_list, create_vars_one, add_basic_constraints,
      add_user_constraints, add_user_one, add_intrinsic_size_constraints,
      has_width_value, has_height_value, load_image, hopen,
      LayoutSolver.new, List.lookup, Except.bind, bind]

/-- Witness for C2's amended statement at a concrete input. -/
theorem C2_resource_failure_witness :
    load_font envNoImages LayoutSolver.new "Arial" =
      .ok { LayoutSolver.new with
            fonts := ("Arial", trivialFont) :: LayoutSolver.new.fonts } ∧
    solve_layout envNoImages solZero
        ⟨"1.0", ⟨200, 200, ⟨255, 255, 255, 255⟩⟩,
         [.image "img" "missing.png" propsImg []]⟩ =
      .error (.constraintErr ("Failed to load image " ++ "missing.png")) :=
  C2_resource_failure envNoImages LayoutSolver.new "Arial" trivialFont
    solZero "1.0" ⟨200, 200, ⟨255, 255, 255, 255⟩⟩ "img" "missing.png"
    propsImg rfl rfl rfl

theorem load_font_state (env : ResourceEnv) (s : LayoutSolver) (fam : String)
    (s' : LayoutSolver) (h : load_font env s fam = .ok s') :
    s'.constraints = s.constraints ∧ s'.vars = s.vars := by
  simp only [load_font] at h
  split at h
  · cases h; exact ⟨rfl, rfl⟩
  · split at h
    · cases h
    · cases h; exact ⟨rfl, rfl⟩

theorem load_image_state (env : ResourceEnv) (s : LayoutSolver)
    (path : String) (s' : LayoutSolver) (h : load_image env s path = .ok s') :
    s'.constraints = s.constraints ∧ s'.vars = s.vars := by
  simp only [load_image] at h
  split at h
  · cases h; exact ⟨rfl, rfl⟩
  · split at h
    · cases h
    · cases h; exact ⟨rfl, rfl⟩

theorem solverLe_of_state {s s' : LayoutSolver}
    (h : s'.constraints = s.constraints ∧ s'.vars = s.vars) :
    solverLe s s' :=
  ⟨h.1 ▸ List.prefix_refl _, h.2⟩

theorem solverLe_ite_emit (s : LayoutSolver) (c : Prop) [Decidable c]
    (x : CConstraint) : solverLe s (if c then emit s x else s) := by
  split
  · exact solverLe_emit _ _
  · exact solverLe_refl _

theorem add_constraint_mono (s : LayoutSolver) (id : ElementId)
    (c : Constraint) (s' : LayoutSolver)
    (h : add_constraint s id c = .ok s') : solverLe s s' := by
  simp only [add_constraint] at h
  split at h
  · cases h
  · cases h; exact solverLe_refl _
  · cases h; exact solverLe_emit _ _

theorem add_constraint_list_mono (id : ElementId) :
    ∀ (cs : List Constraint) (s s' : LayoutSolver),
      add_constraint_list s id cs = .ok s' → solverLe s s' := by
  intro cs
  induction cs with
  | nil =>
    intro s s' h
    simp only [add_constraint_list] at h
    cases h
    exact solverLe_refl _
  | cons c cs ih =>
    intro s s' h
    simp only [add_constraint_list] at h
    split at h
    · cases h
    · next s1 heq =>
      exact solverLe_trans (add_constraint_mono _ _ _ _ heq) (ih _ _ h)

theorem add_intrinsic_mono (env : ResourceEnv) (s : LayoutSolver)
    (e : Element) (s' : LayoutSolver)
    (h : add_intrinsic_size_constraints env s e = .ok s') : solverLe s s' := by
  cases e with
  | text id content props cs =>
    simp only [add_intrinsic_size_constraints] at h
    split at h
    · split at h
      · cases h
      · next s1 hload =>
        split at h
        · cases h
          exact solverLe_of_state (load_font_state _ _ _ _ hload)
        · split at h
          · cases h
            exact solverLe_trans
              (solverLe_of_state (load_font_state _ _ _ _ hload))
              (solverLe_trans (solverLe_ite_emit _ _ _)
                (solverLe_ite_emit _ _ _))
          · cases h
    · cases h; exact solverLe_refl _
  | image id src props cs =>
    simp only [add_intrinsic_size_constraints] at h
    split at h
    · split at h
      · cases h
      · next s1 hload =>
        split at h
        · cases h
          exact solverLe_of_state (load_image_state _ _ _ _ hload)
        · split at h
          · cases h
            exact solverLe_trans
              (solverLe_of_state (load_image_state _ _ _ _ hload))
              (solverLe_trans (solverLe_ite_emit _ _ _)
                (solverLe_ite_emit _ _ _))
          · cases h
    · cases h; exact solverLe_refl _
  | container id props cs children =>
    simp only [add_intrinsic_size_constraints] at h
    cases h; exact solverLe_refl _
  | vstack id props cs children =>
    simp only [add_intrinsic_size_constraints] at h
    cases h; exact solverLe_refl _
  | hstack id props cs children =>
    simp only [add_intrinsic_size_constraints] at h
    cases h; exact solverLe_refl _
  | zstack id props cs children =>
    simp only [add_intrinsic_size_constraints] at h
    cases h; exact solverLe_refl _
  | spacer id ml pr cs =>
    simp only [add_intrinsic_size_constraints] at h
    cases h; exact solverLe_refl _

theorem hstack_loop_mono (sid : ElementId) (sp : ℚ) (al : Alignment) :
    ∀ (children : List Element) (s : LayoutSolver) (prev : Option ElementId)
      (s' : LayoutSolver),
      hstack_loop sid sp al s prev children = .ok s' → solverLe s s' := by
  intro children
  induction children with
  | nil =>
    intro s prev s' h
    simp only [hstack_loop] at h
    cases h
    exact solverLe_refl _
  | cons child rest ih =>
    intro s prev s' h
    simp only [hstack_loop] at h
    split at h
    · cases prev <;> cases al <;>
        exact solverLe_trans
          (solverLe_trans (solverLe_emit _ _)
            (by first
              | exact solverLe_emit _ _
              | exact solverLe_refl _))
          (ih _ _ _ h)
    · cases h

theorem add_vstack_constraints_mono (s : LayoutSolver) (sid : ElementId)
    (children : List Element) (props : StackProperties) (s' : LayoutSolver)
    (h : add_vstack_constraints s sid children props = .ok s') :
    solverLe s s' := by
  simp only [add_vstack_constraints] at h
  split at h
  · cases h; exact solverLe_refl _
  · split at h
    · split at h
      · cases h
      · next sL hloop =>
        split at h
        · cases h; exact vstack_loop_mono _ _ _ _ _ _ _ hloop
        · split at h
          · cases h
            exact solverLe_trans (vstack_loop_mono _ _ _ _ _ _ _ hloop)
              (solverLe_emit _ _)
          · cases h
    · cases h

theorem add_hstack_constraints_mono (s : LayoutSolver) (sid : ElementId)
    (children : List Element) (props : StackProperties) (s' : LayoutSolver)
    (h : add_hstack_constraints s sid children props = .ok s') :
    solverLe s s' := by
  simp only [add_hstack_constraints] at h
  split at h
  · cases h; exact solverLe_refl _
  · split at h
    · split at h
      · cases h
      · next sL hloop =>
        split at h
        · cases h; exact hstack_loop_mono _ _ _ _ _ _ _ hloop
        · split at h
          · cases h
            exact solverLe_trans (hstack_loop_mono _ _ _ _ _ _ _ hloop)
              (solverLe_emit _ _)
          · cases h
    · cases h

mutual

theorem add_user_constraints_mono :
    ∀ (es : List Element) (env : ResourceEnv) (s s' : LayoutSolver),
      add_user_constraints env s es = .ok s' → solverLe s s'
  | [], _, s, s', h => by
    simp only [add_user_constraints] at h
    cases h
    exact solverLe_refl _
  | e :: es, env, s, s', h => by
    simp only [add_user_constraints] at h
    split at h
    · cases h
    · next s1 heq =>
      exact solverLe_trans (add_user_one_mono e env s s1 heq)
        (add_user_constraints_mono es env s1 s' h)

theorem add_user_one_mono :
    ∀ (e : Element) (env : ResourceEnv) (s s' : LayoutSolver),
      add_user_one env s e = .ok s' → solverLe s s'
  | .text i c p cs, env, s, s', h => by
    simp only [add_user_one] at h
    split at h
    · cases h
    · next s1 h1 =>
      exact solverLe_trans (add_intrinsic_mono env s _ s1 h1)
        (add_constraint_list_mono i cs s1 s' h)
  | .image i src p cs, env, s, s', h => by
    simp only [add_user_one] at h
    split at h
    · cases h
    · next s1 h1 =>
      exact solverLe_trans (add_intrinsic_mono env s _ s1 h1)
        (add_constraint_list_mono i cs s1 s' h)
  | .spacer i ml pr cs, env, s, s', h => by
    simp only [add_user_one] at h
    split at h
    · cases h
    · next s1 h1 =>
      exact solverLe_trans (add_intrinsic_mono env s _ s1 h1)
        (add_constraint_list_mono i cs s1 s' h)
  | .container i p cs children, env, s, s', h => by
    simp only [add_user_one] at h
    split at h
    · cases h
    · next s1 h1 =>
      split at h
      · cases h
      · next s2 h2 =>
        exact solverLe_trans (add_intrinsic_mono env s _ s1 h1)
          (solverLe_trans (add_constraint_list_mono i cs s1 s2 h2)
            (add_user_constraints_mono children env s2 s' h))
  | .vstack i p cs children, env, s, s', h => by
    simp only [add_user_one] at h
    split at h
    · cases h
    · next s1 h1 =>
      split at h
      · cases h
      · next s2 h2 =>
        split at h
        · cases h
        · next s3 h3 =>
          exact solverLe_trans (add_intrinsic_mono env s _ s1 h1)
            (solverLe_trans (add_constraint_list_mono i cs s1 s2 h2)
              (solverLe_trans (add_vstack_constraints_mono s2 i children p s3 h3)
                (add_user_constraints_mono children env s3 s' h)))
  | .hstack i p cs children, env, s, s', h => by
    simp only [add_user_one] at h
    split at h
    · cases h
    · next s1 h1 =>
      split at h
      · cases h
      · next s2 h2 =>
        split at h
        · cases h
        · next s3 h3 =>
          exact solverLe_trans (add_intrinsic_mono env s _ s1 h1)
            (solverLe_trans (add_constraint_list_mono i cs s1 s2 h2)
              (solverLe_trans (add_hstack_constraints_mono s2 i children p s3 h3)
                (add_user_constraints_mono children env s3 s' h)))
  | .zstack i p cs children, env, s, s', h => by
    simp only [add_user_one] at h
    split at h
    · cases h
    · next s1 h1 =>
      split at h
      · cases h
      · next s2 h2 =>
        exact solverLe_trans (add_intrinsic_mono env s _ s1 h1)
          (solverLe_trans (add_constraint_list_mono i cs s1 s2 h2)
            (add_user_constraints_mono children env s2 s' h))

end

theorem add_basic_mem (s : LayoutSolver) (id : ElementId) (hid : id ∈ s.vars)
    (c : CConstraint) (hc : c ∈ basic_cons id) :
    c ∈ (add_basic_constraints s).constraints := by
  simp only [add_basic_constraints]
  refine List.mem_append_right _ (List.mem_flatten.mpr ⟨basic_cons id, ?_, hc⟩)
  exact List.mem_map_of_mem _ hid

mutual

theorem extract_results_frames :
    ∀ (es : List Element) (sol : Var → ℚ) (s : LayoutSolver)
      (cl cl' : ComputedLayout), extract_results sol s es cl = .ok cl' →
      ∀ p ∈ cl'.element_frames, p ∈ cl.element_frames ∨
        (p.1 ∈ s.vars ∧ p.2 = solRect sol p.1)
  | [], _, s, cl, cl', h => by
    simp only [extract_results] at h
    cases h
    intro p hp
    exact .inl hp
  | e :: es, sol, s, cl, cl', h => by
    simp only [extract_results] at h
    split at h
    · cases h
    · next cl1 h1 =>
      intro p hp
      rcases extract_results_frames es sol s cl1 cl' h p hp with hin | hnew
      · exact extract_one_frames e sol s cl cl1 h1 p hin
      · exact .inr hnew

theorem extract_one_frames :
    ∀ (e : Element) (sol : Var → ℚ) (s : LayoutSolver)
      (cl cl' : ComputedLayout), extract_one sol s e cl = .ok cl' →
      ∀ p ∈ cl'.element_frames, p ∈ cl.element_frames ∨
        (p.1 ∈ s.vars ∧ p.2 = solRect sol p.1)
  | .text i c pr cs, sol, s, cl, cl', h => by
    simp only [extract_one] at h
    split at h
    · next hid =>
      cases h
      intro p hp
      rcases List.mem_append.mp hp with h' | h'
      · exact .inl h'
      · simp only [List.mem_singleton] at h'
        subst h'
        exact .inr ⟨hid, rfl⟩
    · cases h
  | .image i src pr cs, sol, s, cl, cl', h => by
    simp only [extract_one] at h
    split at h
    · next hid =>
      cases h
      intro p hp
      rcases List.mem_append.mp hp with h' | h'
      · exact .inl h'
      · simp only [List.mem_singleton] at h'
        subst h'
        exact .inr ⟨hid, rfl⟩
    · cases h
  | .spacer i ml pr cs, sol, s, cl, cl', h => by
    simp only [extract_one] at h
    split at h
    · next hid =>
      cases h
      intro p hp
      rcases List.mem_append.mp hp with h' | h'
      · exact .inl h'
      · simp only [List.mem_singleton] at h'
        subst h'
        exact .inr ⟨hid, rfl⟩
    · cases h
  | .container i pr cs children, sol, s, cl, cl', h => by
    simp only [extract_one] at h
    split at h
    · next hid =>
      intro p hp
      rcases extract_results_frames children sol s _ cl' h p hp with hin | hnew
      · rcases List.mem_append.mp hin with h' | h'
        · exact .inl h'
        · simp only [List.mem_singleton] at h'
          subst h'
          exact .inr ⟨hid, rfl⟩
      · exact .inr hnew
    · cases h
  | .vstack i pr cs children, sol, s, cl, cl', h => by
    simp only [extract_one] at h
    split at h
    · next hid =>
      intro p hp
      rcases extract_results_frames children sol s _ cl' h p hp with hin | hnew
      · rcases List.mem_append.mp hin with h' | h'
        · exact .inl h'
        · simp only [List.mem_singleton] at h'
          subst h'
          exact .inr ⟨hid, rfl⟩
      · exact .inr hnew
    · cases h
  | .hstack i pr cs children, sol, s, cl, cl', h => by
    simp only [extract_one] at h
    split at h
    · next hid =>
      intro p hp
      rcases extract_results_frames children sol s _ cl' h p hp with hin | hnew
      · rcases List.mem_append.mp hin with h' | h'
        · exact .inl h'
        · simp only [List.mem_singleton] at h'
          subst h'
          exact .inr ⟨hid, rfl⟩
      · exact .inr hnew
    · cases h
  | .zstack i pr cs children, sol, s, cl, cl', h => by
    simp only [extract_one] at h
    split at h
    · next hid =>
      intro p hp
      rcases extract_results_frames children sol s _ cl' h p hp with hin | hnew
      · rcases List.mem_append.mp hin with h' | h'
        · exact .inl h'
        · simp only [List.mem_singleton] at h'
          subst h'
          exact .inr ⟨hid, rfl⟩
      · exact .inr hnew
    · cases h

end

/-- C9: in every scene whose solve succeeds, every rectangle recorded
in the `ComputedLayout` has nonnegative width and height.  Cassowary's
contract is abstracted by the hypothesis that the extracted solution
satisfies every `REQUIRED`-strength constraint of the emitted system —
which contains `w ≥ 0` and `h ≥ 0` at `REQUIRED` for every node. -/
theorem C9_frames_nonneg (env : ResourceEnv) (sol : Var → ℚ)
    (layout : Layout) (st : LayoutSolver) (cl : ComputedLayout)
    (hsys : solve_system env layout = .ok st)
    (hreq : ∀ c ∈ st.constraints, c.strength = S_REQUIRED → satisfies sol c)
    (hcl : solve_layout env sol layout = .ok cl) :
    ∀ p ∈ cl.element_frames, 0 ≤ p.2.size.width ∧ 0 ≤ p.2.size.height := by
  intro p hp
  simp only [solve_layout, hsys] at hcl
  rcases extract_results_frames layout.elements sol st _ cl hcl p hp with
    hin | ⟨hid, hrect⟩
  · simp [ComputedLayout.new] at hin
  · have hle : solverLe (add_basic_constraints (create_vars_list
        (setup_canvas_constraints LayoutSolver.new layout.canvas)
        layout.elements)) st := by
      simp only [solve_system] at hsys
      exact add_user_constraints_mono _ _ _ _ hsys
    have hid3 : p.1 ∈ (create_vars_list
        (setup_canvas_constraints LayoutSolver.new layout.canvas)
        layout.elements).vars := by
      have := hle.2
      simp only [add_basic_constraints] at this
      rw [this] at hid
      exact hid
    have hw : (⟨.elem p.1 .width, .ge, eConst 0, S_REQUIRED⟩ :
        CConstraint) ∈ st.constraints :=
      solverLe_mem hle (add_basic_mem _ _ hid3 _ (by simp [basic_cons]))
    have hh : (⟨.elem p.1 .height, .ge, eConst 0, S_REQUIRED⟩ :
        CConstraint) ∈ st.constraints :=
      solverLe_mem hle (add_basic_mem _ _ hid3 _ (by simp [basic_cons]))
    rw [hrect]
    constructor
    · simpa [satisfies, evalExpr_eConst, solRect] using hreq _ hw rfl
    · simpa [satisfies, evalExpr_eConst, solRect] using hreq _ hh rfl

/-- Witness for C9 at a concrete one-container scene on a 0×0 canvas,
with the zero assignment (which satisfies every required constraint of
that scene). -/
theorem C9_frames_nonneg_witness :
    0 ≤ (solRect solZero "c").size.width ∧
    0 ≤ (solRect solZero "c").size.height :=
  C9_frames_nonneg envNoImages solZero layoutC9 stC9 clC9 rfl
    (by
      intro c hc _
      simp only [stC9, solve_system, setup_canvas_constraints,
        create_vars_list, create_vars_one, add_basic_constraints,
        add_user_constraints, add_user_one, add_intrinsic_size_constraints,
        add_constraint_list, layoutC9, LayoutSolver.new, basic_cons,
        Except.toOption, Option.getD, List.map, List.flatten,
        List.append_nil, List.nil_append, List.cons_append] at hc
      simp only [List.mem_cons, List.not_mem_nil, or_false] at hc
      rcases hc with rfl | rfl | rfl | rfl | rfl | rfl | rfl | rfl | rfl |
        rfl | rfl | rfl | rfl | rfl <;>
        norm_num [satisfies, evalExpr, solZero, eConst, eAdd2])
    rfl ("c", solRect solZero "c") (List.Mem.head _)

end AutoLayout
